import Mathlib

/-!
Verification model of the AugView pipeline tracker.

This file gives a shallow embedding of the core of the repository:
`augview/core.py` (parameter-spec extraction, pipeline store, execution
engine) and the command-handling part of `augview/server.py` (websocket
command dispatch, broadcast on pipeline update, batch parameter update
endpoint), together with theorems about the embedded definitions.

Modelling conventions:
* Python float values are represented exactly as integer multiples of 1/100
  (`Val.vfloat n` denotes the real number n/100).  Every float constant in
  the embedded code (0.0, 0.01, 0.05, 0.5, 1.0) is such a multiple, and the
  only float arithmetic performed by the code is doubling (`default * 2`)
  and `max` against 1.0, both of which are exact under this scaling.
* Images and encoded image blobs are opaque type parameters `Img` and
  `Blob`; the PNG encode/decode pair, the numpy dtype/channel normalization
  and the mean-absolute-difference comparison of `_check_transform_applied`
  are opaque functions bundled in `ImgOps`.
* A Python exception raised by a call is modelled by the call returning
  `Option.none`; the embedded control flow reproduces the `try/except`
  structure of the source.
* A live transform object is modelled by `TransformObj`: its constructor
  signature (`Option`, since `inspect.signature` may raise), its publicly
  visible attribute dictionary, its call behaviour (`apply`, covering the
  ecosystem-specific invocation plus result extraction), and its `setattr`
  behaviour (returning the mutated object, or `Option.none` when `setattr`
  raises).
-/

set_option maxHeartbeats 1000000

namespace AV

/-- Python runtime values carried in transform parameters and attributes.
`vfloat n` denotes the float n/100 (see the header comment); `vnone` is the
Python `None`; `vobj` stands for any other object (callables, types, dicts,
arrays, ...) — exactly the values the source treats as non-serializable. -/
inductive Val : Type where
  | vint (n : ℤ)
  | vfloat (hundredths : ℤ)
  | vbool (b : Bool)
  | vstr (s : String)
  | vtuple (elems : List Val)
  | vlist (elems : List Val)
  | vnone
  | vobj

/-- Model of Python `float(value)` (used for the `probability` mirror and
`_get_probability`): succeeds on numbers and booleans, raises otherwise.
The result is in hundredths.  (Parsing of numeric strings is not modelled;
no claim depends on it.) -/
def valToFloat : Val → Option ℤ
  | Val.vint n => some (n * 100)
  | Val.vfloat q => some q
  | Val.vbool b => some (if b then 100 else 0)
  | _ => Option.none

/-- The `isinstance(value, (int, float, bool, str, tuple, list))` filter of
`AugView._get_transform_params` (core.py line 233). -/
def serializable : Val → Bool
  | Val.vint _ => true
  | Val.vfloat _ => true
  | Val.vbool _ => true
  | Val.vstr _ => true
  | Val.vtuple _ => true
  | Val.vlist _ => true
  | _ => false

/-- Constructor-parameter type annotations distinguished by
`_extract_param_specs` (core.py lines 180-193): `float`/`Optional[float]`,
`int`/`Optional[int]`, `bool`, or anything else. -/
inductive Ann : Type where
  | afloat
  | aint
  | abool
  | other
deriving DecidableEq

/-- One parameter of a constructor signature, as seen through
`inspect.signature`: its name, its annotation (`Option.none` when the
annotation slot is `inspect.Parameter.empty`) and its declared default
(`Option.none` when the default slot is `inspect.Parameter.empty`). -/
structure SigParam where
  name : String
  anno : Option Ann := Option.none
  default : Option Val := Option.none

/-- The spec dictionary built for one parameter by
`AugView._extract_param_specs`.  Absent dictionary keys are `Option.none`. -/
structure ParamSpec where
  name : String
  type : String
  min : Option Val := Option.none
  max : Option Val := Option.none
  step : Option Val := Option.none
  label : Option String := Option.none
  is_probability : Option Bool := Option.none
  default : Option Val := Option.none

/-- The first phase of `_extract_param_specs` for one parameter
(core.py lines 168-193): the `p` special case, else annotation-based
inference, else `type: unknown`.  Float constants are in hundredths:
`vfloat 5` is 0.05, `vfloat 1` is 0.01, `vfloat 100` is 1.0. -/
def baseSpec (p : SigParam) : ParamSpec :=
  if p.name == "p" then
    { name := p.name, type := "float", min := some (Val.vfloat 0),
      max := some (Val.vfloat 100), step := some (Val.vfloat 5),
      label := some ("Probability"), is_probability := some true }
  else
    match p.anno with
    | some Ann.afloat =>
      { name := p.name, type := "float", min := some (Val.vfloat 0),
        max := some (Val.vfloat 100), step := some (Val.vfloat 1) }
    | some Ann.aint =>
      { name := p.name, type := "int", min := some (Val.vint 0),
        max := some (Val.vint 100), step := some (Val.vint 1) }
    | some Ann.abool => { name := p.name, type := "bool" }
    | _ => { name := p.name, type := "unknown" }

/-- The second phase of `_extract_param_specs` for one parameter
(core.py lines 195-214): when a default is declared, record it and
override/refine the spec from the default's runtime shape.  This block runs
for every parameter, including one named `p`.  `max(1.0, default * 2)` in
hundredths is `max 100 (2 * d)`. -/
def applyDefault (s : ParamSpec) : Option Val → ParamSpec
  | Option.none => s
  | some d =>
    let s := { s with default := some d }
    match d with
    | Val.vfloat q =>
      { s with type := "float", min := some (Val.vfloat 0),
               max := some (Val.vfloat (max 100 (2 * q))),
               step := some (Val.vfloat 1) }
    | Val.vint n =>
      { s with type := "int", min := some (Val.vint 0),
               max := some (Val.vint (max 100 (2 * n))),
               step := some (Val.vint 1) }
    | Val.vbool _ => { s with type := "bool" }
    | Val.vtuple [a, b] => { s with type := "range", min := some a, max := some b }
    | _ => s

/-- The spec `_extract_param_specs` produces for one constructor
parameter. -/
def extractSpec (p : SigParam) : ParamSpec :=
  applyDefault (baseSpec p) p.default

/-- `AugView._extract_param_specs` over a whole constructor signature:
skip `self`/`args`/`kwargs`, build one spec per remaining parameter
(core.py lines 157-220). -/
def extract_param_specs_of_sig (ps : List SigParam) : List (String × ParamSpec) :=
  (ps.filter (fun p => !(p.name == "self" || p.name == "args" || p.name == "kwargs"))).map
    (fun p => (p.name, extractSpec p))

/-- A live transform object as the tracker sees it: declaring-module
string, class name, constructor signature (`Option.none` when
`inspect.signature` raises, in which case `_extract_param_specs` returns an
empty map), public attribute dictionary, call behaviour and `setattr`
behaviour.  `apply img = Option.none` models the transform call raising;
`setAttr n v = Option.none` models `setattr` raising. -/
structure TransformObj (Img : Type) where
  module : String
  className : String
  sig : Option (List SigParam)
  attrs : List (String × Val)
  apply : Img → Option Img
  setAttr : String → Val → Option (TransformObj Img)

variable {Img Blob : Type} {α : Type}

/-- `AugView._extract_param_specs` on a transform object: the whole loop is
wrapped in `try/except Exception: pass`, so an unavailable signature yields
the empty map (core.py lines 217-218). -/
def extract_param_specs (t : TransformObj Img) : List (String × ParamSpec) :=
  match t.sig with
  | Option.none => []
  | some ps => extract_param_specs_of_sig ps

/-- Python's `attr.startswith('_')`, on the character list (the byte-level
`String.startsWith` is avoided so the model stays kernel-computable). -/
def startsWithUnderscore (s : String) : Bool :=
  ("_").toList.isPrefixOf s.toList

/-- `AugView._get_transform_params` (core.py lines 222-238): the public
(non-underscore) attributes whose values are serializable scalars or small
sequences.  Callables and types are `vobj` here, hence filtered out. -/
def get_transform_params (t : TransformObj Img) : List (String × Val) :=
  t.attrs.filter (fun kv => !startsWithUnderscore kv.1 && serializable kv.2)

/-- Attribute lookup on a transform object (`getattr`/`hasattr`). -/
def lookupAttr (t : TransformObj Img) (n : String) : Option Val :=
  (t.attrs.find? (fun kv => kv.1 == n)).map (fun kv => kv.2)

/-- `AugView._get_probability` (core.py lines 240-244): `float(transform.p)`
when the attribute exists.  Result in hundredths. -/
def get_probability (t : TransformObj Img) : Option ℤ :=
  match lookupAttr t ("p") with
  | some v => valToFloat v
  | Option.none => Option.none

/-- Substring test, modelling Python's `"x" in module`. -/
def strContainsSub (s sub : String) : Bool :=
  (s.toList.tails).any (fun tl => sub.toList.isPrefixOf tl)

/-- Transform-type detection from the declaring module string
(core.py lines 248-256). -/
def detect_type (module : String) : String :=
  if strContainsSub module ("albumentations") then "albumentations"
  else if strContainsSub module ("torchvision") then "torchvision"
  else "custom"

/-- The `TransformStep` dataclass (core.py lines 58-84).  `probability`
is in hundredths. -/
structure TransformStep (Blob : Type) where
  id : String
  name : String
  transform_type : String
  params : List (String × Val)
  param_specs : List (String × ParamSpec)
  input_image : Option Blob := Option.none
  output_image : Option Blob := Option.none
  enabled : Bool := true
  applied : Bool := true
  probability : Option ℤ := Option.none

/-- One element of `AugView._transforms`: the live transform object paired
with its step record.  In the source the step object is shared between
`_transforms` and `pipeline.steps`; here `pipeline.steps` is the projection
`entries.map (fun e => e.step)`. -/
structure Entry (Img Blob : Type) where
  t : TransformObj Img
  step : TransformStep Blob

/-- The opaque image operations: base64/PNG encode and decode
(`image_to_base64` / `base64_to_image`), the dtype/channel normalization
applied after a successful transform call (core.py lines 340-353), and the
`_check_transform_applied` heuristic (shape mismatch or mean absolute
difference above 0.5). -/
structure ImgOps (Img Blob : Type) where
  encode : Img → Blob
  decode : Blob → Img
  normalize : Img → Img
  differs : Img → Img → Bool

/-- The state of an `AugView` instance: pipeline identity, the
transform/step pairs, the pipeline-level image snapshots and the
`_last_image` source cache used by `rerun`. -/
structure AugViewState (Img Blob : Type) where
  name : String
  pipelineId : String
  pipelineName : String
  entries : List (Entry Img Blob)
  original_image : Option Blob
  final_image : Option Blob
  last_image : Option Img

/-- The pipeline snapshot pushed to observers (`Pipeline.to_dict`,
serialization of values left abstract). -/
structure PipelineSnap (Blob : Type) where
  id : String
  name : String
  steps : List (TransformStep Blob)
  original_image : Option Blob
  final_image : Option Blob

/-- The snapshot of the current state, as broadcast by
`_notify_update` → `broadcast_update`. -/
def snapshot (v : AugViewState Img Blob) : PipelineSnap Blob :=
  { id := v.pipelineId, name := v.pipelineName,
    steps := v.entries.map (fun e => e.step),
    original_image := v.original_image, final_image := v.final_image }

/-- One iteration of the `process_image` loop (core.py lines 308-363):
disabled steps snapshot the working image unchanged; otherwise the
transform is applied — a raising call (`apply = Option.none`) is caught,
setting `output_image = input_image`, `applied = false` and leaving the
working image unchanged; a successful call is normalized, snapshotted and
compared against the input for the `applied` flag.  Returns the updated
entry and the working image handed to the next step. -/
def runStep (ops : ImgOps Img Blob) (e : Entry Img Blob) (cur : Img) :
    Entry Img Blob × Img :=
  if e.step.enabled then
    let inp := ops.encode cur
    match e.t.apply cur with
    | Option.none =>
      ({ e with step :=
          { e.step with
              input_image := some inp,
              output_image := some inp,
              applied := false } }, cur)
    | some r =>
      let r := ops.normalize r
      ({ e with step :=
          { e.step with
              input_image := some inp,
              output_image := some (ops.encode r),
              applied := ops.differs cur r } }, r)
  else
    ({ e with step :=
        { e.step with
            input_image := some (ops.encode cur),
            output_image := some (ops.encode cur),
            applied := false } }, cur)

/-- The full `process_image` loop over the entry list, threading the
working image. -/
def runEntries (ops : ImgOps Img Blob) :
    List (Entry Img Blob) → Img → List (Entry Img Blob) × Img
  | [], cur => ([], cur)
  | e :: es, cur =>
    let r := runStep ops e cur
    let rest := runEntries ops es r.2
    (r.1 :: rest.1, rest.2)

/-- `AugView.process_image` (core.py lines 297-368): cache the source in
`_last_image`, snapshot it as `original_image`, run every step, set
`final_image`, and notify (the third component is the list of snapshots
broadcast by `_notify_update`; `process_image` emits exactly one).  The
second component is the returned final working image. -/
def process_image (ops : ImgOps Img Blob) (v : AugViewState Img Blob)
    (image : Img) : AugViewState Img Blob × Img × List (PipelineSnap Blob) :=
  let r := runEntries ops v.entries image
  let v' : AugViewState Img Blob :=
    { v with last_image := some image,
             original_image := some (ops.encode image),
             entries := r.1,
             final_image := some (ops.encode r.2) }
  (v', r.2, [snapshot v'])

/-- `AugView.rerun` (core.py lines 370-377): replay with the cached
`_last_image`; only when there is no cached source, decode
`original_image`; if neither exists do nothing and return `None`. -/
def rerun (ops : ImgOps Img Blob) (v : AugViewState Img Blob) :
    AugViewState Img Blob × Option Img × List (PipelineSnap Blob) :=
  match v.last_image with
  | some img =>
    let r := process_image ops v img
    (r.1, some r.2.1, r.2.2)
  | Option.none =>
    match v.original_image with
    | some b =>
      let r := process_image ops v (ops.decode b)
      (r.1, some r.2.1, r.2.2)
    | Option.none => (v, Option.none, [])

/-- The websocket `rerun` command branch (server.py lines 140-144): when
`pipeline.original_image` is set, decode it and run `process_image` on the
decoded image; otherwise do nothing.  Note this never consults the
`_last_image` cache. -/
def ws_rerun (ops : ImgOps Img Blob) (v : AugViewState Img Blob) :
    AugViewState Img Blob × Option Img × List (PipelineSnap Blob) :=
  match v.original_image with
  | some b =>
    let r := process_image ops v (ops.decode b)
    (r.1, some r.2.1, r.2.2)
  | Option.none => (v, Option.none, [])

/-- Python dict assignment `m[k] = value`: overwrite in place, or append a
new key at the end (insertion order preserved). -/
def setKey (m : List (String × Val)) (k : String) (value : Val) :
    List (String × Val) :=
  if m.any (fun kv => kv.1 == k) then
    m.map (fun kv => if kv.1 == k then (k, value) else kv)
  else m ++ [(k, value)]

/-- The search-and-mutate loop of `AugView.update_step_param`
(core.py lines 381-397) over the entry list, without the trailing rerun:
`Option.none` when no step has the id; otherwise the updated entries and
whether the `try` body reached `return True`.  The `try` wraps `setattr`
(which may raise before anything is mutated), the `params` dict update, and
the `float(value)` conversion for the `probability` mirror (which may raise
after the attribute and `params` were already mutated). -/
def update_entries (sid pname : String) (value : Val) :
    List (Entry Img Blob) → Option (List (Entry Img Blob) × Bool)
  | [] => Option.none
  | e :: es =>
    if e.step.id == sid then
      match e.t.setAttr pname value with
      | Option.none => some (e :: es, false)
      | some t' =>
        let step1 := { e.step with params := setKey e.step.params pname value }
        if pname == "p" then
          match valToFloat value with
          | Option.none => some ({ t := t', step := step1 } :: es, false)
          | some q =>
            some ({ t := t', step := { step1 with probability := some q } } :: es, true)
        else
          some ({ t := t', step := step1 } :: es, true)
    else
      (update_entries sid pname value es).map (fun r => (e :: r.1, r.2))

/-- `AugView.update_step_param` (core.py lines 379-397): `false` and no
re-run when the id is unknown or the `try` body raised; on success, re-run
the pipeline and return `true`.  The third component collects the
snapshots broadcast during the call. -/
def update_step_param (ops : ImgOps Img Blob) (v : AugViewState Img Blob)
    (sid pname : String) (value : Val) :
    AugViewState Img Blob × Bool × List (PipelineSnap Blob) :=
  match update_entries sid pname value v.entries with
  | Option.none => (v, false, [])
  | some (es, false) => ({ v with entries := es }, false, [])
  | some (es, true) =>
    let r := rerun ops { v with entries := es }
    (r.1, true, r.2.2)

/-- The search loop of `AugView.toggle_step` (core.py lines 399-407):
set `enabled` on the first step with the given id. -/
def toggle_entries (sid : String) (en : Bool) :
    List (Entry Img Blob) → Option (List (Entry Img Blob))
  | [] => Option.none
  | e :: es =>
    if e.step.id == sid then
      some ({ e with step := { e.step with enabled := en } } :: es)
    else
      (toggle_entries sid en es).map (fun r => e :: r)

/-- `AugView.toggle_step`: `false` when the id is unknown; otherwise flip
`enabled`, re-run and return `true`. -/
def toggle_step (ops : ImgOps Img Blob) (v : AugViewState Img Blob)
    (sid : String) (en : Bool) :
    AugViewState Img Blob × Bool × List (PipelineSnap Blob) :=
  match toggle_entries sid en v.entries with
  | Option.none => (v, false, [])
  | some es =>
    let r := rerun ops { v with entries := es }
    (r.1, true, r.2.2)

/-- `AugView.add_transform` (core.py lines 246-272): detect the ecosystem
from the module string, capture current params, extract specs and the
probability, and append the new step (enabled, applied placeholder true).
The uuid4 id generation is modelled by the supplied `freshId`. -/
def add_transform (t : TransformObj Img) (freshId : String)
    (nameOpt : Option String) (v : AugViewState Img Blob) :
    AugViewState Img Blob × TransformStep Blob :=
  let step : TransformStep Blob :=
    { id := freshId, name := nameOpt.getD t.className,
      transform_type := detect_type t.module,
      params := get_transform_params t,
      param_specs := extract_param_specs t,
      input_image := Option.none, output_image := Option.none,
      enabled := true, applied := true,
      probability := get_probability t }
  ({ v with entries := v.entries ++ [{ t := t, step := step }] }, step)

/-- The inbound websocket mutation commands (server.py lines 125-144). -/
inductive Command : Type where
  | update_param (sid pname : String) (value : Val)
  | toggle_cmd (sid : String) (enabled : Bool)
  | rerun_cmd

/-- The websocket message dispatch of `websocket_endpoint`
(server.py lines 125-144): `update_param` and `toggle_step` call the
corresponding store operation (return value ignored); `rerun` decodes
`original_image` when present.  The second component is the list of
snapshots broadcast to the connected observers while handling the
command (each snapshot is fanned out to every currently open observer
by `broadcast_update`). -/
def handle_command (ops : ImgOps Img Blob) (v : AugViewState Img Blob) :
    Command → AugViewState Img Blob × List (PipelineSnap Blob)
  | Command.update_param sid pname value =>
    let r := update_step_param ops v sid pname value
    (r.1, r.2.2)
  | Command.toggle_cmd sid en =>
    let r := toggle_step ops v sid en
    (r.1, r.2.2)
  | Command.rerun_cmd =>
    let r := ws_rerun ops v
    (r.1, r.2.2)

/-- The `PUT /api/step/.../params` endpoint `update_step_params`
(server.py lines 176-188): apply the name→value pairs one at a time in
iteration order; on the first failing parameter raise a 400
`HTTPException` (modelled as `Except.error` with the detail string),
leaving the earlier updates and their re-runs in effect. -/
def update_step_params_batch (ops : ImgOps Img Blob) (sid : String) :
    AugViewState Img Blob → List (String × Val) →
    AugViewState Img Blob × List (PipelineSnap Blob) × Except String Unit
  | v, [] => (v, [], Except.ok ())
  | v, (n, value) :: rest =>
    let r := update_step_param ops v sid n value
    if r.2.1 then
      let r2 := update_step_params_batch ops sid r.1 rest
      (r2.1, r.2.2 ++ r2.2.1, r2.2.2)
    else
      (r.1, r.2.2, Except.error ("Failed to update " ++ n))

/-- Keys of an association list (dict key view). -/
def keysOf (l : List (String × α)) : List String := l.map (fun kv => kv.1)

/-- `a ⊆ b` on key lists, as a boolean. -/
def keysSubset (a b : List String) : Bool := a.all (fun k => b.contains k)

/-- The claimed invariant on one step: `paramSpecs` keys form a subset of
`params` keys. -/
def stepSpecsSubset (s : TransformStep Blob) : Bool :=
  keysSubset (keysOf s.param_specs) (keysOf s.params)

/-- The invariant over every step of the store. -/
def allSpecsSubset (v : AugViewState Img Blob) : Prop :=
  ∀ e ∈ v.entries, stepSpecsSubset e.step = true

/-- Preservation of all non-image, non-flag fields of a step (everything
but `input_image`, `output_image`, `applied`). -/
def sameMeta (a b : TransformStep Blob) : Prop :=
  a.id = b.id ∧ a.name = b.name ∧ a.transform_type = b.transform_type ∧
  a.enabled = b.enabled ∧ a.params = b.params ∧
  a.param_specs = b.param_specs ∧ a.probability = b.probability

/-! Concrete instances used to evaluate the model on explicit inputs.
Images and blobs are both `Nat`; `decode (encode x) = x + 1` makes the
encode/decode round trip visibly lossy, as a PNG/base64 round trip of a
non-canonical array is. -/

/-- Concrete image operations on `Nat` images/blobs. -/
def exOps : ImgOps Nat Nat :=
  { encode := fun i => i, decode := fun b => b + 1,
    normalize := fun i => i, differs := fun a b => a != b }

/-- A custom transform adding one to the image; `setattr` always raises. -/
def noSetObj : TransformObj Nat :=
  { module := "examples.custom", className := "Inc",
    sig := Option.none, attrs := [],
    apply := fun i => some (i + 1), setAttr := fun _ _ => Option.none }

/-- A custom transform whose call always raises. -/
def boomObj : TransformObj Nat :=
  { module := "examples.custom", className := "Boom",
    sig := Option.none, attrs := [],
    apply := fun _ => Option.none, setAttr := fun _ _ => Option.none }

/-- A transform accepting `setattr` for the attribute `a` once (the mutated
object then rejects every further `setattr`). -/
def okSetObj : TransformObj Nat :=
  { module := "examples.custom", className := "Tunable",
    sig := some [{ name := "self" }, { name := "a", default := some (Val.vint 1) }],
    attrs := [("a", Val.vint 1)],
    apply := fun i => some i,
    setAttr := fun n _ => if n == "a" then some noSetObj else Option.none }

/-- An albumentations-style transform declaring `p: float = 0.5` in its
constructor (`vfloat 50` is 0.5). -/
def pObj : TransformObj Nat :=
  { module := "albumentations.augmentations.transforms", className := "Demo",
    sig := some [{ name := "self" },
                 { name := "p", anno := some Ann.afloat, default := some (Val.vfloat 50) }],
    attrs := [("p", Val.vfloat 50)],
    apply := fun i => some i, setAttr := fun _ _ => Option.none }

/-- A transform whose constructor declares a parameter `q` that the object
never stores as an attribute ( `def __init__(self, q): pass` ). -/
def qObj : TransformObj Nat :=
  { module := "examples.custom", className := "Silent",
    sig := some [{ name := "self" }, { name := "q" }],
    attrs := [],
    apply := fun i => some i, setAttr := fun _ _ => Option.none }

/-- A step record with the given id and enabled flag. -/
def mkStep (sid : String) (en : Bool) : TransformStep Nat :=
  { id := sid, name := "t", transform_type := "custom",
    params := [], param_specs := [], enabled := en }

/-- A viewer state with the given entries, source cache and original
image. -/
def mkState (es : List (Entry Nat Nat)) (li oi : Option Nat) :
    AugViewState Nat Nat :=
  { name := "P", pipelineId := "pid", pipelineName := "P", entries := es,
    original_image := oi, final_image := Option.none, last_image := li }

/-- An empty pipeline whose source cache and original image are both
present (the cached source decodes differently from `original_image`). -/
def vEmpty : AugViewState Nat Nat := mkState [] (some 0) (some 0)

/-- An entry wrapping the add-one transform, enabled. -/
def incEntry : Entry Nat Nat := { t := noSetObj, step := mkStep ("s1") true }

/-- An entry wrapping the always-raising transform, enabled. -/
def boomEntry : Entry Nat Nat := { t := boomObj, step := mkStep ("s1") true }

/-- An entry wrapping the add-one transform, disabled. -/
def disEntry : Entry Nat Nat := { t := noSetObj, step := mkStep ("s2") false }

/-- A one-step pipeline with a cached source image. -/
def vOne : AugViewState Nat Nat := mkState [incEntry] (some 0) Option.none

/-- A one-step pipeline whose transform accepts one `setattr` on `a`. -/
def vTunable : AugViewState Nat Nat :=
  mkState [{ t := okSetObj, step := mkStep ("s1") true }] (some 0) Option.none

/-- An empty pipeline with an original image but no cached source. -/
def vNoCache : AugViewState Nat Nat := mkState [] Option.none (some 0)

/-! ### Helper lemmas about the execution engine -/

theorem runStep_out (ops : ImgOps Img Blob) (e : Entry Img Blob) (cur : Img) :
    ((runStep ops e cur).1).step.output_image =
      some (ops.encode (runStep ops e cur).2) := by
  unfold runStep
  by_cases h : e.step.enabled
  · simp only [h, if_true]
    cases happ : e.t.apply cur <;> simp
  · simp [h]

theorem runStep_meta (ops : ImgOps Img Blob) (e : Entry Img Blob) (cur : Img) :
    (runStep ops e cur).1.t = e.t ∧
      sameMeta ((runStep ops e cur).1).step e.step := by
  unfold runStep sameMeta
  by_cases h : e.step.enabled
  · simp only [h, if_true]
    cases happ : e.t.apply cur <;> simp [h]
  · simp [h]

theorem runEntries_length (ops : ImgOps Img Blob) (es : List (Entry Img Blob))
    (cur : Img) : (runEntries ops es cur).1.length = es.length := by
  induction es generalizing cur with
  | nil => rfl
  | cons e es ih => simp [runEntries, ih]

theorem runEntries_forall₂ (ops : ImgOps Img Blob) (es : List (Entry Img Blob))
    (cur : Img) :
    List.Forall₂ (fun a b => b.t = a.t ∧ sameMeta b.step a.step)
      es (runEntries ops es cur).1 := by
  induction es generalizing cur with
  | nil => exact List.Forall₂.nil
  | cons e es ih => exact List.Forall₂.cons (runStep_meta ops e cur) (ih _)

theorem runEntries_last_out (ops : ImgOps Img Blob) (es : List (Entry Img Blob)) :
    ∀ cur : Img, es ≠ [] →
      ∃ l, (runEntries ops es cur).1.getLast? = some l ∧
        l.step.output_image = some (ops.encode (runEntries ops es cur).2) := by
  induction es with
  | nil => intro cur h; exact absurd rfl h
  | cons e es ih =>
    intro cur _
    cases es with
    | nil =>
      refine ⟨(runStep ops e cur).1, rfl, ?_⟩
      exact runStep_out ops e cur
    | cons e2 es2 =>
      obtain ⟨l, hl, ho⟩ := ih (runStep ops e cur).2 (by simp)
      refine ⟨l, ?_, ho⟩
      have hshape : (runEntries ops (e :: e2 :: es2) cur).1
          = (runStep ops e cur).1 ::
            (runStep ops e2 (runStep ops e cur).2).1 ::
            (runEntries ops es2 (runStep ops e2 (runStep ops e cur).2).2).1 := rfl
      rw [hshape, List.getLast?_cons_cons]
      exact hl

/-! ### Helper lemmas about parameter updates and broadcasts -/

theorem update_entries_none (sid pname : String) (value : Val)
    (es : List (Entry Img Blob)) (h : ∀ e ∈ es, e.step.id ≠ sid) :
    update_entries sid pname value es = (Option.none : Option (List (Entry Img Blob) × Bool)) := by
  induction es with
  | nil => rfl
  | cons e es ih =>
    have hne : (e.step.id == sid) = false := by
      simpa using h e (by simp)
    simp [update_entries, hne, ih (fun x hx => h x (by simp [hx]))]

theorem update_fail_no_bcast (ops : ImgOps Img Blob) (v : AugViewState Img Blob)
    (sid pname : String) (value : Val)
    (h : (update_step_param ops v sid pname value).2.1 = false) :
    (update_step_param ops v sid pname value).2.2 = [] := by
  unfold update_step_param at h ⊢
  rcases hu : update_entries sid pname value v.entries with _ | ⟨es, ok⟩
  · simp [hu]
  · cases ok with
    | false => simp [hu]
    | true => rw [hu] at h; simp at h

theorem rerun_bcast (ops : ImgOps Img Blob) (v : AugViewState Img Blob) :
    (rerun ops v).2.2 = [] ∨
      (rerun ops v).2.2 = [snapshot (rerun ops v).1] := by
  unfold rerun
  rcases hl : v.last_image with _ | img
  · rcases ho : v.original_image with _ | b
    · left; rfl
    · right; rfl
  · right; rfl

theorem ws_rerun_bcast (ops : ImgOps Img Blob) (v : AugViewState Img Blob) :
    (ws_rerun ops v).2.2 = [] ∨
      (ws_rerun ops v).2.2 = [snapshot (ws_rerun ops v).1] := by
  unfold ws_rerun
  rcases ho : v.original_image with _ | b
  · left; rfl
  · right; rfl

theorem toggle_bcast (ops : ImgOps Img Blob) (v : AugViewState Img Blob)
    (sid : String) (en : Bool) :
    (toggle_step ops v sid en).2.2 = [] ∨
      (toggle_step ops v sid en).2.2 = [snapshot (toggle_step ops v sid en).1] := by
  unfold toggle_step
  rcases h : toggle_entries sid en v.entries with _ | es
  · left; simp [h]
  · rcases rerun_bcast ops { v with entries := es } with h2 | h2
    · left; simp [h, h2]
    · right; simp [h, h2]

theorem update_bcast (ops : ImgOps Img Blob) (v : AugViewState Img Blob)
    (sid pname : String) (value : Val) :
    (update_step_param ops v sid pname value).2.2 = [] ∨
      (update_step_param ops v sid pname value).2.2 =
        [snapshot (update_step_param ops v sid pname value).1] := by
  unfold update_step_param
  rcases h : update_entries sid pname value v.entries with _ | ⟨es, ok⟩
  · left; simp [h]
  · cases ok with
    | false => left; simp [h]
    | true =>
      rcases rerun_bcast ops { v with entries := es } with h2 | h2
      · left; simp [h, h2]
      · right; simp [h, h2]

/-! ### Helper lemmas about the paramSpecs/params key-subset property -/

theorem keysOf_setKey (m : List (String × Val)) (k : String) (value : Val) :
    keysOf (setKey m k value) = keysOf m ∨
      keysOf (setKey m k value) = keysOf m ++ [k] := by
  unfold setKey
  split
  · left
    unfold keysOf
    rw [List.map_map]
    apply List.map_congr_left
    intro kv _
    simp only [Function.comp_apply]
    split
    next h => exact (eq_of_beq h).symm
    next => rfl
  · right
    unfold keysOf
    simp

theorem contains_setKey_of_contains (m : List (String × Val)) (k k' : String)
    (value : Val) (h : (keysOf m).contains k' = true) :
    (keysOf (setKey m k value)).contains k' = true := by
  rcases keysOf_setKey m k value with he | he <;> rw [he]
  · exact h
  · rw [List.contains_iff_exists_mem_beq] at h ⊢
    obtain ⟨a, ha, hb⟩ := h
    exact ⟨a, List.mem_append_left _ ha, hb⟩

theorem keysSubset_setKey (a : List String) (m : List (String × Val))
    (k : String) (value : Val) (h : keysSubset a (keysOf m) = true) :
    keysSubset a (keysOf (setKey m k value)) = true := by
  unfold keysSubset at h ⊢
  rw [List.all_eq_true] at h ⊢
  intro x hx
  exact contains_setKey_of_contains m k x value (h x hx)

theorem stepSpecsSubset_of_sameMeta (a b : TransformStep Blob)
    (h : sameMeta a b) (hs : stepSpecsSubset b = true) :
    stepSpecsSubset a = true := by
  unfold stepSpecsSubset at hs ⊢
  rw [h.2.2.2.2.1, h.2.2.2.2.2.1]
  exact hs

theorem allSubset_runEntries (ops : ImgOps Img Blob) (es : List (Entry Img Blob))
    (cur : Img) (hall : ∀ e ∈ es, stepSpecsSubset e.step = true) :
    ∀ e ∈ (runEntries ops es cur).1, stepSpecsSubset e.step = true := by
  induction es generalizing cur with
  | nil => intro x hx; cases hx
  | cons e es ih =>
    intro x hx
    rw [show (runEntries ops (e :: es) cur).1
        = (runStep ops e cur).1 ::
          (runEntries ops es (runStep ops e cur).2).1 from rfl] at hx
    rcases List.mem_cons.mp hx with rfl | hx
    · exact stepSpecsSubset_of_sameMeta _ _ (runStep_meta ops e cur).2
        (hall e (by simp))
    · exact ih _ (fun y hy => hall y (by simp [hy])) x hx

theorem allSubset_rerun (ops : ImgOps Img Blob) (v : AugViewState Img Blob)
    (hall : allSpecsSubset v) : allSpecsSubset (rerun ops v).1 := by
  unfold rerun
  rcases hl : v.last_image with _ | img
  · rcases ho : v.original_image with _ | b
    · exact hall
    · exact allSubset_runEntries ops v.entries (ops.decode b) hall
  · exact allSubset_runEntries ops v.entries img hall

theorem update_entries_allSubset (sid pname : String) (value : Val)
    (es : List (Entry Img Blob)) :
    ∀ (es' : List (Entry Img Blob)) (ok : Bool),
      update_entries sid pname value es = some (es', ok) →
      (∀ e ∈ es, stepSpecsSubset e.step = true) →
      ∀ e ∈ es', stepSpecsSubset e.step = true := by
  induction es with
  | nil => intro es' ok h; cases h
  | cons e es ih =>
    intro es' ok h hall
    have hsub : stepSpecsSubset
        { e.step with params := setKey e.step.params pname value } = true := by
      unfold stepSpecsSubset
      exact keysSubset_setKey _ _ _ _ (hall e (by simp))
    by_cases hid : (e.step.id == sid) = true
    · rcases hset : e.t.setAttr pname value with _ | t'
      · simp [update_entries, hid, hset] at h
        rw [← h.1]
        exact hall
      · by_cases hp : (pname == "p") = true
        · rcases hq : valToFloat value with _ | q
          · simp [update_entries, hid, hset, hp, hq] at h
            rw [← h.1]
            intro x hx
            rcases List.mem_cons.mp hx with rfl | hx
            · exact hsub
            · exact hall x (by simp [hx])
          · simp [update_entries, hid, hset, hp, hq] at h
            rw [← h.1]
            intro x hx
            rcases List.mem_cons.mp hx with rfl | hx
            · exact hsub
            · exact hall x (by simp [hx])
        · simp [update_entries, hid, hset, hp] at h
          rw [← h.1]
          intro x hx
          rcases List.mem_cons.mp hx with rfl | hx
          · exact hsub
          · exact hall x (by simp [hx])
    · rcases hrec : update_entries sid pname value es with _ | ⟨es2, ok2⟩
      · simp [update_entries, hid, hrec] at h
      · simp [update_entries, hid, hrec] at h
        rw [← h.1]
        intro x hx
        rcases List.mem_cons.mp hx with rfl | hx
        · exact hall x (by simp)
        · exact ih es2 ok2 hrec (fun y hy => hall y (by simp [hy])) x hx

theorem toggle_entries_allSubset (sid : String) (en : Bool)
    (es : List (Entry Img Blob)) :
    ∀ es' : List (Entry Img Blob),
      toggle_entries sid en es = some es' →
      (∀ e ∈ es, stepSpecsSubset e.step = true) →
      ∀ e ∈ es', stepSpecsSubset e.step = true := by
  induction es with
  | nil => intro es' h; cases h
  | cons e es ih =>
    intro es' h hall
    by_cases hid : (e.step.id == sid) = true
    · simp [toggle_entries, hid] at h
      rw [← h]
      intro x hx
      rcases List.mem_cons.mp hx with rfl | hx
      · have := hall e (by simp)
        unfold stepSpecsSubset at this ⊢
        exact this
      · exact hall x (by simp [hx])
    · rcases hrec : toggle_entries sid en es with _ | es2
      · simp [toggle_entries, hid, hrec] at h
      · simp [toggle_entries, hid, hrec] at h
        rw [← h]
        intro x hx
        rcases List.mem_cons.mp hx with rfl | hx
        · exact hall x (by simp)
        · exact ih es2 hrec (fun y hy => hall y (by simp [hy])) x hx

/-! ### Helper lemma about the batch parameter endpoint -/

theorem batch_append_ok (ops : ImgOps Img Blob) (sid : String)
    (ps1 : List (String × Val)) :
    ∀ (v : AugViewState Img Blob) (ps2 : List (String × Val)),
      (update_step_params_batch ops sid v ps1).2.2 = Except.ok () →
      update_step_params_batch ops sid v (ps1 ++ ps2) =
        ((update_step_params_batch ops sid
            (update_step_params_batch ops sid v ps1).1 ps2).1,
         (update_step_params_batch ops sid v ps1).2.1 ++
           (update_step_params_batch ops sid
             (update_step_params_batch ops sid v ps1).1 ps2).2.1,
         (update_step_params_batch ops sid
           (update_step_params_batch ops sid v ps1).1 ps2).2.2) := by
  induction ps1 with
  | nil => intro v ps2 _; rfl
  | cons p ps ih =>
    intro v ps2 h
    rcases p with ⟨n, value⟩
    by_cases hok : (update_step_param ops v sid n value).2.1 = true
    · rw [update_step_params_batch, if_pos hok] at h
      have hrec := ih (update_step_param ops v sid n value).1 ps2 h
      show update_step_params_batch ops sid v ((n, value) :: (ps ++ ps2)) = _
      rw [update_step_params_batch, if_pos hok, hrec]
      rw [update_step_params_batch, if_pos hok]
      simp [List.append_assoc]
    · rw [update_step_params_batch, if_neg hok] at h
      cases h

/-! ### Claim C1 -/

/-- Claim C1 (corrected): for a constructor parameter named `p`, the first
phase of extraction forces the probability spec, and `label`/`isProbability`
always survive; the exact claimed record (type float, min 0, max 1,
step 0.05) is produced regardless of the annotation only when `p` declares
no default.  A declared float default d does change the spec: the
default-shape rule overrides `step` to 0.01 and `max` to `max(1, 2*d)` and
records the default.  (`vfloat n` denotes the float n/100.) -/
theorem claim_C1 (p : SigParam) (h : p.name = "p") :
    ((extractSpec p).label = some ("Probability") ∧
      (extractSpec p).is_probability = some true) ∧
    (p.default = Option.none →
      extractSpec p =
        { name := "p", type := "float", min := some (Val.vfloat 0),
          max := some (Val.vfloat 100), step := some (Val.vfloat 5),
          label := some ("Probability"), is_probability := some true,
          default := Option.none }) ∧
    (∀ d : ℤ, p.default = some (Val.vfloat d) →
      extractSpec p =
        { name := "p", type := "float", min := some (Val.vfloat 0),
          max := some (Val.vfloat (max 100 (2 * d))),
          step := some (Val.vfloat 1),
          label := some ("Probability"), is_probability := some true,
          default := some (Val.vfloat d) }) := by
  have hb : (p.name == "p") = true := by simp [h]
  refine ⟨?_, ?_, ?_⟩
  · rcases hd : p.default with _ | d
    · simp [extractSpec, applyDefault, baseSpec, hb, hd]
    · rcases d with n | q | b | s | elems | elems | _ | _
      · simp [extractSpec, applyDefault, baseSpec, hb, hd]
      · simp [extractSpec, applyDefault, baseSpec, hb, hd]
      · simp [extractSpec, applyDefault, baseSpec, hb, hd]
      · simp [extractSpec, applyDefault, baseSpec, hb, hd]
      · rcases elems with _ | ⟨a, _ | ⟨b2, _ | _⟩⟩ <;>
          simp [extractSpec, applyDefault, baseSpec, hb, hd]
      · simp [extractSpec, applyDefault, baseSpec, hb, hd]
      · simp [extractSpec, applyDefault, baseSpec, hb, hd]
      · simp [extractSpec, applyDefault, baseSpec, hb, hd]
  · intro hd
    simp [extractSpec, applyDefault, baseSpec, hb, hd, h]
  · intro d hd
    simp [extractSpec, applyDefault, baseSpec, hb, hd, h]

/-- Claim C1 counterexample: for an albumentations-style transform whose
constructor declares `p: float = 0.5`, extraction yields the `p` spec with
step 0.01 (`vfloat 1`), not the claimed 0.05 (`vfloat 5`): a float default
does change the `step` of the `p` spec. -/
theorem claim_C1_counterexample :
    ((extract_param_specs pObj).find? (fun kv => kv.1 == "p")).map
        (fun kv => kv.2.step) = some (some (Val.vfloat 1)) ∧
    (some (some (Val.vfloat 1)) : Option (Option Val)) ≠
      some (some (Val.vfloat 5)) := by
  refine ⟨rfl, fun hc => ?_⟩
  have h1 := Option.some.inj (Option.some.inj hc)
  exact absurd (Val.vfloat.inj h1) (by decide)

/-- Witness for C1 at concrete inputs: `p` with an int annotation and no
default gets exactly the forced probability spec; `p: float = 0.5` gets
the default-overridden spec. -/
theorem claim_C1_witness :
    extractSpec { name := "p", anno := some Ann.aint } =
      { name := "p", type := "float", min := some (Val.vfloat 0),
        max := some (Val.vfloat 100), step := some (Val.vfloat 5),
        label := some ("Probability"), is_probability := some true,
        default := Option.none } ∧
    extractSpec { name := "p", anno := some Ann.afloat,
                  default := some (Val.vfloat 50) } =
      { name := "p", type := "float", min := some (Val.vfloat 0),
        max := some (Val.vfloat (max 100 (2 * 50))),
        step := some (Val.vfloat 1),
        label := some ("Probability"), is_probability := some true,
        default := some (Val.vfloat 50) } :=
  ⟨(claim_C1 { name := "p", anno := some Ann.aint } rfl).2.1 rfl,
   (claim_C1 { name := "p", anno := some Ann.afloat,
               default := some (Val.vfloat 50) } rfl).2.2 50 rfl⟩

/-! ### Claim C2 -/

/-- Claim C2 (corrected): handling an inbound command broadcasts either
nothing or exactly one snapshot — the resulting state's full pipeline
snapshot, fanned out to every open observer — and an `update_param` naming
an unknown step id performs nothing and broadcasts nothing: the broadcast
happens only when the command triggers a run, not regardless of failure. -/
theorem claim_C2 (ops : ImgOps Img Blob) (v : AugViewState Img Blob) :
    (∀ c : Command, (handle_command ops v c).2 = [] ∨
      (handle_command ops v c).2 = [snapshot (handle_command ops v c).1]) ∧
    (∀ (sid pname : String) (value : Val),
      (∀ e ∈ v.entries, e.step.id ≠ sid) →
      handle_command ops v (Command.update_param sid pname value) = (v, [])) := by
  constructor
  · intro c
    cases c with
    | update_param sid pname value => exact update_bcast ops v sid pname value
    | toggle_cmd sid en => exact toggle_bcast ops v sid en
    | rerun_cmd => exact ws_rerun_bcast ops v
  · intro sid pname value h
    have hu : update_step_param ops v sid pname value = (v, false, []) := by
      unfold update_step_param
      rw [update_entries_none sid pname value v.entries h]
    show ((update_step_param ops v sid pname value).1,
          (update_step_param ops v sid pname value).2.2) = (v, [])
    rw [hu]

/-- Claim C2 counterexample: an `update_param` with an unknown step id is
handled with an empty broadcast list — no observer receives any snapshot,
although the claim requires a broadcast regardless of failure. -/
theorem claim_C2_counterexample :
    (handle_command exOps vOne
      (Command.update_param ("zzz") ("a") (Val.vint 1))).2 = [] := rfl

/-- Witness for C2 at concrete inputs. -/
theorem claim_C2_witness :
    ((handle_command exOps vOne (Command.toggle_cmd ("s1") false)).2 = [] ∨
      (handle_command exOps vOne (Command.toggle_cmd ("s1") false)).2 =
        [snapshot (handle_command exOps vOne (Command.toggle_cmd ("s1") false)).1]) ∧
    handle_command exOps vOne
        (Command.update_param ("zzz") ("a") (Val.vint 1)) = (vOne, []) :=
  ⟨(claim_C2 exOps vOne).1 (Command.toggle_cmd ("s1") false),
   (claim_C2 exOps vOne).2 ("zzz") ("a") (Val.vint 1) (by decide)⟩

/-! ### Claim C3 -/

/-- Claim C3 (corrected): the inbound websocket `rerun` always decodes
`originalImage` as the source and never consults the cached source; it
agrees with the engine's `rerun()` exactly when no cached source exists. -/
theorem claim_C3 (ops : ImgOps Img Blob) (v : AugViewState Img Blob)
    (h : v.last_image = Option.none) : ws_rerun ops v = rerun ops v := by
  unfold ws_rerun rerun
  rw [h]

/-- Claim C3 counterexample: with a cached source present and a lossy
encode/decode round trip, the websocket `rerun` (which decodes
`originalImage`) produces a different final image from the engine's
`rerun()` (which replays the cached source): the two are not equivalent,
and repeated websocket reruns do compound encode/decode loss. -/
theorem claim_C3_counterexample :
    (ws_rerun exOps vEmpty).1.final_image ≠
      (rerun exOps vEmpty).1.final_image := by
  decide

/-- Witness for C3 at a concrete state with no cached source. -/
theorem claim_C3_witness : ws_rerun exOps vNoCache = rerun exOps vNoCache :=
  claim_C3 exOps vNoCache rfl

/-! ### Claim C4 -/

/-- Claim C4 (confirmed): an enabled step whose apply call raises is
recovered locally — its output snapshot equals its input snapshot, its
applied flag is false, the working image passed to the following steps is
exactly the working image before the failing step, and execution continues
with the remaining steps (the run is a total function in this model,
mirroring the catch-all except handler: no exception reaches the caller). -/
theorem claim_C4 (ops : ImgOps Img Blob) (e : Entry Img Blob)
    (es : List (Entry Img Blob)) (cur : Img)
    (hen : e.step.enabled = true) (happ : e.t.apply cur = Option.none) :
    runStep ops e cur =
      ({ e with step :=
          { e.step with
              input_image := some (ops.encode cur),
              output_image := some (ops.encode cur),
              applied := false } }, cur) ∧
    runEntries ops (e :: es) cur =
      (({ e with step :=
          { e.step with
              input_image := some (ops.encode cur),
              output_image := some (ops.encode cur),
              applied := false } }) :: (runEntries ops es cur).1,
       (runEntries ops es cur).2) := by
  have h1 : runStep ops e cur =
      ({ e with step :=
          { e.step with
              input_image := some (ops.encode cur),
              output_image := some (ops.encode cur),
              applied := false } }, cur) := by
    unfold runStep
    simp [hen, happ]
  refine ⟨h1, ?_⟩
  rw [show runEntries ops (e :: es) cur
      = ((runStep ops e cur).1 ::
          (runEntries ops es (runStep ops e cur).2).1,
         (runEntries ops es (runStep ops e cur).2).2) from rfl, h1]

/-- Witness for C4: the always-raising transform on image 0. -/
theorem claim_C4_witness :
    runStep exOps boomEntry 0 =
      ({ boomEntry with step :=
          { boomEntry.step with
              input_image := some (exOps.encode 0),
              output_image := some (exOps.encode 0),
              applied := false } }, 0) ∧
    runEntries exOps [boomEntry] 0 =
      (({ boomEntry with step :=
          { boomEntry.step with
              input_image := some (exOps.encode 0),
              output_image := some (exOps.encode 0),
              applied := false } }) :: (runEntries exOps [] 0).1,
       (runEntries exOps [] 0).2) :=
  claim_C4 exOps boomEntry [] 0 rfl rfl

/-! ### Claim C5 -/

/-- Claim C5 (confirmed): after a completed run, `finalImage` equals the
`outputImage` of the last step (the run preserves the step count, so the
last-step clause is non-vacuous for a non-empty pipeline), and with no
steps `finalImage` equals `originalImage`. -/
theorem claim_C5 (ops : ImgOps Img Blob) (v : AugViewState Img Blob)
    (img : Img) :
    (process_image ops v img).1.entries.length = v.entries.length ∧
    (v.entries = [] →
      (process_image ops v img).1.final_image =
        (process_image ops v img).1.original_image) ∧
    (∀ l, (process_image ops v img).1.entries.getLast? = some l →
      (process_image ops v img).1.final_image = l.step.output_image) := by
  refine ⟨runEntries_length ops v.entries img, ?_, ?_⟩
  · intro h
    show some (ops.encode (runEntries ops v.entries img).2) =
      some (ops.encode img)
    rw [h]
    rfl
  · intro l hl
    by_cases hne : v.entries = []
    · have hl' : (runEntries ops v.entries img).1.getLast? = some l := hl
      rw [hne] at hl'
      simp [runEntries] at hl'
    · obtain ⟨l2, hl2, ho2⟩ := runEntries_last_out ops v.entries img hne
      have hl' : (runEntries ops v.entries img).1.getLast? = some l := hl
      have heq : l2 = l := Option.some.inj (hl2.symm.trans hl')
      subst heq
      exact ho2.symm

/-- Witness for C5: the empty pipeline and a one-step pipeline. -/
theorem claim_C5_witness :
    (process_image exOps vEmpty 3).1.final_image =
      (process_image exOps vEmpty 3).1.original_image ∧
    (process_image exOps vOne 3).1.final_image =
      ((runStep exOps incEntry 3).1).step.output_image :=
  ⟨(claim_C5 exOps vEmpty 3).2.1 rfl,
   (claim_C5 exOps vOne 3).2.2 ((runStep exOps incEntry 3).1) rfl⟩

/-! ### Claim C6 -/

/-- Claim C6 (corrected): `paramSpecs` keys are the constructor-declared
parameter names while `params` keys are the stored serializable public
attributes, so the subset inclusion holds at creation only when every
declared parameter is exposed as such an attribute; when it holds for all
steps, it is preserved by parameter updates, toggles and runs (updates
only add `params` keys, and nothing else touches either mapping). -/
theorem claim_C6 :
    (∀ (t : TransformObj Img) (fid : String) (nameOpt : Option String)
        (v : AugViewState Img Blob),
      (∀ n ∈ keysOf (extract_param_specs t),
        (keysOf (get_transform_params t)).contains n = true) →
      stepSpecsSubset (add_transform t fid nameOpt v).2 = true) ∧
    (∀ (ops : ImgOps Img Blob) (v : AugViewState Img Blob)
        (sid pname : String) (value : Val),
      allSpecsSubset v →
      allSpecsSubset (update_step_param ops v sid pname value).1) ∧
    (∀ (ops : ImgOps Img Blob) (v : AugViewState Img Blob)
        (sid : String) (en : Bool),
      allSpecsSubset v → allSpecsSubset (toggle_step ops v sid en).1) ∧
    (∀ (ops : ImgOps Img Blob) (v : AugViewState Img Blob) (img : Img),
      allSpecsSubset v → allSpecsSubset (process_image ops v img).1) := by
  refine ⟨?_, ?_, ?_, ?_⟩
  · intro t fid nameOpt v h
    unfold stepSpecsSubset keysSubset
    rw [List.all_eq_true]
    intro x hx
    exact h x hx
  · intro ops v sid pname value hall
    rcases hu : update_entries sid pname value v.entries with _ | ⟨es, ok⟩
    · have hv : update_step_param ops v sid pname value = (v, false, []) := by
        unfold update_step_param
        rw [hu]
      rw [hv]
      exact hall
    · cases ok with
      | false =>
        have hv : update_step_param ops v sid pname value
            = ({ v with entries := es }, false, []) := by
          unfold update_step_param
          rw [hu]
        rw [hv]
        intro e he
        exact update_entries_allSubset sid pname value v.entries es false hu hall e he
      | true =>
        have hv : update_step_param ops v sid pname value
            = ((rerun ops { v with entries := es }).1, true,
               (rerun ops { v with entries := es }).2.2) := by
          unfold update_step_param
          rw [hu]
        rw [hv]
        exact allSubset_rerun ops { v with entries := es }
          (update_entries_allSubset sid pname value v.entries es true hu hall)
  · intro ops v sid en hall
    rcases hu : toggle_entries sid en v.entries with _ | es
    · have hv : toggle_step ops v sid en = (v, false, []) := by
        unfold toggle_step
        rw [hu]
      rw [hv]
      exact hall
    · have hv : toggle_step ops v sid en
          = ((rerun ops { v with entries := es }).1, true,
             (rerun ops { v with entries := es }).2.2) := by
        unfold toggle_step
        rw [hu]
      rw [hv]
      exact allSubset_rerun ops { v with entries := es }
        (toggle_entries_allSubset sid en v.entries es hu hall)
  · intro ops v img hall
    intro e he
    exact allSubset_runEntries ops v.entries img hall e he

/-- Claim C6 counterexample: a transform whose constructor declares `q`
but never stores it as an attribute yields a step whose `paramSpecs`
contains `q` while `params` is empty — the subset inclusion fails at
creation. -/
theorem claim_C6_counterexample :
    stepSpecsSubset (add_transform qObj ("id1") Option.none vEmpty).2 = false := rfl

/-- Witness for C6 at concrete inputs. -/
theorem claim_C6_witness :
    stepSpecsSubset (add_transform pObj ("id2") Option.none vEmpty).2 = true ∧
    allSpecsSubset (update_step_param exOps vTunable ("s1") ("a") (Val.vint 2)).1 :=
  ⟨claim_C6.1 pObj ("id2") Option.none vEmpty (by decide),
   claim_C6.2.1 exOps vTunable ("s1") ("a") (Val.vint 2)
     (fun e he => by
       have h : e = { t := okSetObj, step := mkStep ("s1") true } :=
         List.mem_singleton.mp he
       rw [h]
       rfl)⟩

/-! ### Claim C7 -/

/-- Claim C7 (confirmed): a run leaves the pipeline identity and, for
every step, all fields other than `inputImage`, `outputImage`, `applied`
unchanged (id, name, kind, enabled, params, paramSpecs, probability —
the probability mirror is untouched by execution), and also leaves the
transform objects themselves untouched. -/
theorem claim_C7 (ops : ImgOps Img Blob) (v : AugViewState Img Blob)
    (img : Img) :
    (process_image ops v img).1.pipelineId = v.pipelineId ∧
    (process_image ops v img).1.pipelineName = v.pipelineName ∧
    (process_image ops v img).1.name = v.name ∧
    List.Forall₂ (fun a b => b.t = a.t ∧ sameMeta b.step a.step)
      v.entries (process_image ops v img).1.entries :=
  ⟨rfl, rfl, rfl, runEntries_forall₂ ops v.entries img⟩

/-! ### Claim C8 -/

/-- Claim C8 (confirmed): a disabled step snapshots the working image as
both its input and output, is marked not applied, and passes the working
image through unchanged to the next step. -/
theorem claim_C8 (ops : ImgOps Img Blob) (e : Entry Img Blob)
    (es : List (Entry Img Blob)) (cur : Img)
    (hen : e.step.enabled = false) :
    runStep ops e cur =
      ({ e with step :=
          { e.step with
              input_image := some (ops.encode cur),
              output_image := some (ops.encode cur),
              applied := false } }, cur) ∧
    runEntries ops (e :: es) cur =
      (({ e with step :=
          { e.step with
              input_image := some (ops.encode cur),
              output_image := some (ops.encode cur),
              applied := false } }) :: (runEntries ops es cur).1,
       (runEntries ops es cur).2) := by
  have h1 : runStep ops e cur =
      ({ e with step :=
          { e.step with
              input_image := some (ops.encode cur),
              output_image := some (ops.encode cur),
              applied := false } }, cur) := by
    unfold runStep
    simp [hen]
  refine ⟨h1, ?_⟩
  rw [show runEntries ops (e :: es) cur
      = ((runStep ops e cur).1 ::
          (runEntries ops es (runStep ops e cur).2).1,
         (runEntries ops es (runStep ops e cur).2).2) from rfl, h1]

/-- Witness for C8: a disabled step on image 5. -/
theorem claim_C8_witness :
    runStep exOps disEntry 5 =
      ({ disEntry with step :=
          { disEntry.step with
              input_image := some (exOps.encode 5),
              output_image := some (exOps.encode 5),
              applied := false } }, 5) ∧
    runEntries exOps [disEntry] 5 =
      (({ disEntry with step :=
          { disEntry.step with
              input_image := some (exOps.encode 5),
              output_image := some (exOps.encode 5),
              applied := false } }) :: (runEntries exOps [] 5).1,
       (runEntries exOps [] 5).2) :=
  claim_C8 exOps disEntry [] 5 rfl

/-! ### Claim C9 -/

/-- Claim C9 (confirmed): `updateStepParam` with an id matching no step
returns failure, triggers no re-run, broadcasts nothing, and returns the
state itself — every step field and every pipeline field unchanged. -/
theorem claim_C9 (ops : ImgOps Img Blob) (v : AugViewState Img Blob)
    (sid pname : String) (value : Val)
    (h : ∀ e ∈ v.entries, e.step.id ≠ sid) :
    update_step_param ops v sid pname value = (v, false, []) := by
  unfold update_step_param
  rw [update_entries_none sid pname value v.entries h]

/-- Witness for C9: updating an unknown step id on the one-step state. -/
theorem claim_C9_witness :
    update_step_param exOps vOne ("zzz") ("a") (Val.vint 1) = (vOne, false, []) :=
  claim_C9 exOps vOne ("zzz") ("a") (Val.vint 1) (by decide)

/-! ### Claim C10 -/

/-- Claim C10 (confirmed): the batch endpoint applies the pairs one at a
time in iteration order; given a successful prefix and a failing next
parameter it returns the 400 error naming that parameter, keeps the
prefix's updates and their re-run broadcasts in effect (the returned state
is the state reached after the prefix plus the failing attempt, with the
prefix's broadcasts retained), and never examines the remaining pairs —
the batch is not atomic and nothing is rolled back. -/
theorem claim_C10 (ops : ImgOps Img Blob) (sid : String)
    (v : AugViewState Img Blob) (ps1 : List (String × Val)) (n : String)
    (value : Val) (rest : List (String × Val))
    (h1 : (update_step_params_batch ops sid v ps1).2.2 = Except.ok ())
    (h2 : (update_step_param ops
      (update_step_params_batch ops sid v ps1).1 sid n value).2.1 = false) :
    update_step_params_batch ops sid v (ps1 ++ (n, value) :: rest) =
      ((update_step_param ops
          (update_step_params_batch ops sid v ps1).1 sid n value).1,
       (update_step_params_batch ops sid v ps1).2.1,
       Except.error ("Failed to update " ++ n)) := by
  rw [batch_append_ok ops sid ps1 v ((n, value) :: rest) h1]
  have h3 := update_fail_no_bcast ops
    (update_step_params_batch ops sid v ps1).1 sid n value h2
  rw [update_step_params_batch, if_neg (by simp [h2])]
  rw [h3]
  simp

/-- Witness for C10: the one-step tunable pipeline, batch
`[a ↦ 2, b ↦ 3]` where `a` succeeds and `b` fails. -/
theorem claim_C10_witness :
    update_step_params_batch exOps ("s1") vTunable
        ([("a", Val.vint 2)] ++ ("b", Val.vint 3) :: []) =
      ((update_step_param exOps
          (update_step_params_batch exOps ("s1") vTunable
            [("a", Val.vint 2)]).1 ("s1") ("b") (Val.vint 3)).1,
       (update_step_params_batch exOps ("s1") vTunable
         [("a", Val.vint 2)]).2.1,
       Except.error ("Failed to update " ++ "b")) :=
  claim_C10 exOps ("s1") vTunable [("a", Val.vint 2)] ("b") (Val.vint 3) []
    rfl rfl

end AV
